import Mathlib

/-!
Verification of the secure configuration manager of the movie-agent demo
(`config_manager.py`).

The manager owns two files on disk: an encrypted configuration blob and a
master-key file.  We embed the filesystem as an association list from paths
to byte strings together with per-path read/write denial sets (modelling
permission failures), the manager object as its two configured paths plus
the cached cipher, and each Python method as an explicit state-passing
function returning an `Except` result together with the updated manager and
filesystem.  The third-party primitives (Fernet encryption and JSON
serialisation) are abstracted as a `CryptoModel` carrying the round-trip
laws those libraries document; a concrete executable instance is provided
for evaluating the development on closed inputs.
-/

/-- A JSON-ish configuration value: the configuration mapping stores
strings (provider names and API keys), integers and booleans. -/
inductive Val where
  | str (s : String)
  | nat (n : Nat)
  | bool (b : Bool)
deriving DecidableEq

/-- A configuration mapping, as an insertion-ordered dictionary
(association list) from string keys to values, mirroring a Python dict. -/
abbrev Config := List (String × Val)

/-- Python truthiness of a value (`not data.get(k)` tests this):
empty strings, zero and `False` are falsy. -/
def Val.truthy : Val → Bool
  | .str s => !(s == "")
  | .nat n => !(n == 0)
  | .bool b => b

/-- Truthiness of `data.get(k)`: a missing key (`None`) is falsy. -/
def truthy : Option Val → Bool
  | none => false
  | some v => v.truthy

/-- Character-list prefix test backing the model of `str.startswith`. -/
def charsPrefixOf : List Char → List Char → Bool
  | [], _ => true
  | _ :: _, [] => false
  | c :: cs, d :: ds => c == d && charsPrefixOf cs ds

/-- Model of `s.startswith(p)` on Python strings. -/
def strStartsWith (s p : String) : Bool :=
  charsPrefixOf p.data s.data

/-- Model of `data[k].startswith(p)` on the result of a lookup.  Only string values
reach this in the source (non-string truthy values would raise
`AttributeError` in Python, outside the modelled domain). -/
def startsWithVal : Option Val → String → Bool
  | some (.str s), p => strStartsWith s p
  | _, _ => false

/-- Model of `data.get(k)`: first binding of the key in the mapping. -/
def getVal : Config → String → Option Val
  | [], _ => none
  | (k1, v) :: rest, k => if k1 = k then some v else getVal rest k

/-- Model of `base[k] = v` on a dict: replace the value at an existing key in
place, otherwise append the new binding (Python dict assignment). -/
def setKey : Config → String → Val → Config
  | [], k, v => [(k, v)]
  | (k1, v1) :: rest, k, v =>
    if k1 = k then (k, v) :: rest else (k1, v1) :: setKey rest k v

/-- Model of `base.update(updates)` on Python dicts: apply each binding of
`updates` in order, updates winning key-by-key. -/
def dictUpdate (base updates : Config) : Config :=
  updates.foldl (fun acc kv => setKey acc kv.1 kv.2) base

/-- Translation of `validate_setup_data` from `config_manager.py`, rendered check by
check: required-field rules first, then the two key-format rules, first
failure wins. -/
def validate_setup_data (data : Config) : Bool × Option String :=
  if truthy (getVal data "llm_provider") = false then
    (false, some "LLM provider is required")
  else if getVal data "llm_provider" = some (Val.str "groq") ∧
      truthy (getVal data "groq_api_key") = false then
    (false, some "Groq API key is required when using Groq")
  else if getVal data "llm_provider" = some (Val.str "openai") ∧
      truthy (getVal data "openai_api_key") = false then
    (false, some "OpenAI API key is required when using OpenAI")
  else if truthy (getVal data "openai_api_key") = false then
    (false, some "OpenAI API key is required for embeddings")
  else if truthy (getVal data "openai_api_key") = true ∧
      startsWithVal (getVal data "openai_api_key") "sk-" = false then
    (false, some "OpenAI API key format appears invalid (should start with \x27sk-\x27)")
  else if truthy (getVal data "groq_api_key") = true ∧
      startsWithVal (getVal data "groq_api_key") "gsk_" = false then
    (false, some "Groq API key format appears invalid (should start with \x27gsk_\x27)")
  else
    (true, none)

/-- Raw file contents, a byte string. -/
abbrev Bytes := List Nat

/-- Error kinds surfaced by the manager: `ioError` models an `OSError`
(missing file, permission denial); `corrupted` models the `ValueError`
raised by `load_config` on any failure inside its try block. -/
inductive Err where
  | ioError
  | corrupted
deriving DecidableEq

/-- First file bound to a path in the backing list. -/
def lookupBytes : List (String × Bytes) → String → Option Bytes
  | [], _ => none
  | (q, b) :: rest, p => if q = p then some b else lookupBytes rest p

/-- The filesystem: path-to-contents bindings plus the sets of paths on
which reading respectively writing fails with a permission error. -/
structure FS where
  files : List (String × Bytes)
  denyRead : List String
  denyWrite : List String
deriving DecidableEq

/-- Contents currently stored at a path. -/
def FS.lookupFile (fs : FS) (p : String) : Option Bytes :=
  lookupBytes fs.files p

/-- Model of `Path.exists()`. -/
def FS.pathExists (fs : FS) (p : String) : Bool :=
  (fs.lookupFile p).isSome

/-- Model of opening a file for binary read and reading it, which fails
with an `OSError` on a denied or missing path. -/
def FS.readFile (fs : FS) (p : String) : Except Err Bytes :=
  if p ∈ fs.denyRead then .error .ioError
  else
    match fs.lookupFile p with
    | some b => .ok b
    | none => .error .ioError

/-- The filesystem after a successful write of `b` at `p`. -/
def FS.setFile (fs : FS) (p : String) (b : Bytes) : FS :=
  ⟨(p, b) :: fs.files.filter (fun e => !(e.1 == p)), fs.denyRead, fs.denyWrite⟩

/-- Model of opening a file for binary write and writing `b`, which fails
with an `OSError` on a denied path and otherwise replaces the contents at
`p`. -/
def FS.writeFile (fs : FS) (p : String) (b : Bytes) : Except Err FS :=
  if p ∈ fs.denyWrite then .error .ioError else .ok (fs.setFile p b)

/-- Model of `Path.unlink()`: drop every binding of the path. -/
def FS.removeFile (fs : FS) (p : String) : FS :=
  ⟨fs.files.filter (fun e => !(e.1 == p)), fs.denyRead, fs.denyWrite⟩

/-- A `SecureConfigManager` instance: its two configured paths and the
cached `_cipher` (a Fernet object is determined by its key, so the cache
is modelled as the optional key bytes). -/
structure Manager where
  config_file : String
  master_key_file : String
  cipher : Option Bytes
deriving DecidableEq

/-- The external cryptography and JSON primitives used by the manager
(`Fernet.generate_key`, `Fernet.encrypt`, `Fernet.decrypt`, `json.dumps`,
`json.loads`), abstracted with the round-trip laws those libraries
guarantee.  `genKey` is indexed by a randomness seed. -/
structure CryptoModel where
  genKey : Nat → Bytes
  encrypt : Bytes → Bytes → Bytes
  decrypt : Bytes → Bytes → Option Bytes
  dumps : Config → Bytes
  loads : Bytes → Option Config
  decrypt_encrypt : ∀ k m, decrypt k (encrypt k m) = some m
  loads_dumps : ∀ c, loads (dumps c) = some c

instance {α β : Type} [DecidableEq α] [DecidableEq β] :
    DecidableEq (Except α β) := fun x y =>
  match x, y with
  | .ok a, .ok b =>
    if h : a = b then isTrue (by rw [h])
    else isFalse (fun he => by cases he; exact h rfl)
  | .ok _, .error _ => isFalse (fun he => Except.noConfusion he)
  | .error _, .ok _ => isFalse (fun he => Except.noConfusion he)
  | .error a, .error b =>
    if h : a = b then isTrue (by rw [h])
    else isFalse (fun he => by cases he; exact h rfl)

/-- Translation of `is_configured`: both files exist. -/
def is_configured (m : Manager) (fs : FS) : Bool :=
  fs.pathExists m.config_file && fs.pathExists m.master_key_file

/-- Translation of the master-key accessor: read the key file if it exists,
otherwise generate a fresh key and persist it.  (The best-effort `chmod`
is swallowed in the source and filesystem modes beyond the deny sets are
not modelled.) -/
def get_or_create_master_key (C : CryptoModel) (m : Manager) (fs : FS)
    (seed : Nat) : Except Err Bytes × FS :=
  if fs.pathExists m.master_key_file then
    match fs.readFile m.master_key_file with
    | .ok k => (.ok k, fs)
    | .error e => (.error e, fs)
  else
    let key := C.genKey seed
    match fs.writeFile m.master_key_file key with
    | .ok fs1 => (.ok key, fs1)
    | .error e => (.error e, fs)

/-- Translation of the cipher accessor: return the cached cipher, or obtain the master key and
cache the cipher built from it. -/
def get_cipher (C : CryptoModel) (m : Manager) (fs : FS) (seed : Nat) :
    Except Err Bytes × Manager × FS :=
  match m.cipher with
  | some k => (.ok k, m, fs)
  | none =>
    match get_or_create_master_key C m fs seed with
    | (.ok k, fs1) => (.ok k, { m with cipher := some k }, fs1)
    | (.error e, fs1) => (.error e, m, fs1)

/-- Translation of `save_config`: obtain the cipher, serialise and encrypt the mapping,
and overwrite the config file.  Errors propagate unwrapped. -/
def save_config (C : CryptoModel) (m : Manager) (fs : FS) (seed : Nat)
    (config : Config) : Except Err Unit × Manager × FS :=
  match get_cipher C m fs seed with
  | (.error e, m1, fs1) => (.error e, m1, fs1)
  | (.ok k, m1, fs1) =>
    match fs1.writeFile m1.config_file (C.encrypt k (C.dumps config)) with
    | .ok fs2 => (.ok (), m1, fs2)
    | .error e => (.error e, m1, fs1)

/-- Translation of `load_config`: `None` when not configured; otherwise obtain the
cipher, read, decrypt and parse the blob.  Any failure inside the try
block — including a filesystem error — is re-raised as the `ValueError`
"Failed to load configuration", i.e. the `corrupted` kind. -/
def load_config (C : CryptoModel) (m : Manager) (fs : FS) (seed : Nat) :
    Except Err (Option Config) × Manager × FS :=
  if is_configured m fs = false then (.ok none, m, fs)
  else
    match get_cipher C m fs seed with
    | (.error _, m1, fs1) => (.error .corrupted, m1, fs1)
    | (.ok k, m1, fs1) =>
      match fs1.readFile m1.config_file with
      | .error _ => (.error .corrupted, m1, fs1)
      | .ok encrypted =>
        match C.decrypt k encrypted with
        | none => (.error .corrupted, m1, fs1)
        | some plain =>
          match C.loads plain with
          | none => (.error .corrupted, m1, fs1)
          | some config => (.ok (some config), m1, fs1)

/-- Translation of `update_config`: load the current configuration with a
missing result replaced by the empty dict, shallow-merge the updates on
top, save the result.  A load failure propagates. -/
def update_config (C : CryptoModel) (m : Manager) (fs : FS) (seed : Nat)
    (updates : Config) : Except Err Unit × Manager × FS :=
  match load_config C m fs seed with
  | (.error e, m1, fs1) => (.error e, m1, fs1)
  | (.ok opt, m1, fs1) => save_config C m1 fs1 seed (dictUpdate (opt.getD []) updates)

/-- Translation of `delete_config`: unlink each of the two files if it exists.  The
cached cipher is not cleared. -/
def delete_config (m : Manager) (fs : FS) : FS :=
  let fs1 := if fs.pathExists m.config_file then fs.removeFile m.config_file else fs
  if fs1.pathExists m.master_key_file then fs1.removeFile m.master_key_file else fs1

/-- Length-prefixed byte encoding of a string (codec for the concrete
`CryptoModel` instance used to evaluate the development). -/
def encStr (s : String) : List Nat :=
  s.data.length :: s.data.map Char.toNat

/-- Decode one length-prefixed string from a byte stream, returning the
remaining stream. -/
def decStr : List Nat → Option (String × List Nat)
  | [] => none
  | n :: rest =>
    if n ≤ rest.length then
      some (String.mk ((rest.take n).map Char.ofNat), rest.drop n)
    else none

/-- Tagged encoding of one value. -/
def encVal : Val → List Nat
  | .nat n => [0, n]
  | .bool b => [1, cond b 1 0]
  | .str s => 2 :: encStr s

/-- Decode one tagged value from a byte stream. -/
def decVal : List Nat → Option (Val × List Nat)
  | 0 :: n :: rest => some (.nat n, rest)
  | 1 :: n :: rest => some (.bool (n == 1), rest)
  | 2 :: rest =>
    match decStr rest with
    | some (s, rest1) => some (.str s, rest1)
    | none => none
  | _ => none

/-- Concatenated encoding of the entries of a mapping. -/
def encEntries : Config → List Nat
  | [] => []
  | (k, v) :: rest => encStr k ++ (encVal v ++ encEntries rest)

/-- Decode a given number of key-value entries from a byte stream. -/
def decEntries : Nat → List Nat → Option (Config × List Nat)
  | 0, b => some ([], b)
  | Nat.succ n, b =>
    match decStr b with
    | none => none
    | some (k, b1) =>
      match decVal b1 with
      | none => none
      | some (v, b2) =>
        match decEntries n b2 with
        | none => none
        | some (rest, b3) => some ((k, v) :: rest, b3)

/-- Concrete serialiser standing in for `json.dumps`. -/
def toyDumps (c : Config) : Bytes :=
  c.length :: encEntries c

/-- Concrete parser standing in for `json.loads`. -/
def toyLoads (b : Bytes) : Option Config :=
  match b with
  | [] => none
  | n :: rest =>
    match decEntries n rest with
    | some (c, _) => some c
    | none => none

/-- Concrete authenticated cipher standing in for Fernet: the ciphertext
records the key length followed by the key and the plaintext. -/
def toyEncrypt (k m : Bytes) : Bytes :=
  k.length :: (k ++ m)

/-- Inverse of `toyEncrypt`, failing on any byte string that is not a
ciphertext under the given key. -/
def toyDecrypt (k b : Bytes) : Option Bytes :=
  match b with
  | [] => none
  | n :: rest =>
    if n = k.length ∧ rest.take k.length = k then some (rest.drop k.length)
    else none

theorem decStr_encStr (s : String) (r : List Nat) :
    decStr (encStr s ++ r) = some (s, r) := by
  have hlen : s.data.length = (s.data.map Char.toNat).length := by
    rw [List.length_map]
  simp only [encStr, decStr, List.cons_append]
  rw [if_pos]
  · rw [hlen, List.take_left, List.drop_left, List.map_map]
    have hcomp : (Char.ofNat ∘ Char.toNat) = id := by
      funext c
      simp [Function.comp, Char.ofNat_toNat]
    rw [hcomp, List.map_id]
  · rw [hlen, List.length_append]
    exact Nat.le_add_right _ _

theorem decVal_encVal (v : Val) (r : List Nat) :
    decVal (encVal v ++ r) = some (v, r) := by
  cases v with
  | nat n => rfl
  | bool b => cases b <;> rfl
  | str s =>
    simp only [encVal, decVal, List.cons_append, List.append_assoc]
    rw [decStr_encStr]

theorem decEntries_encEntries (c : Config) (r : List Nat) :
    decEntries c.length (encEntries c ++ r) = some (c, r) := by
  induction c generalizing r with
  | nil => rfl
  | cons e rest ih =>
    obtain ⟨k, v⟩ := e
    simp only [encEntries, List.length_cons, decEntries, List.append_assoc,
      decStr_encStr, decVal_encVal, ih]

theorem toyLoads_toyDumps (c : Config) : toyLoads (toyDumps c) = some c := by
  have h := decEntries_encEntries c []
  simp only [toyDumps, toyLoads]
  rw [List.append_nil] at h
  rw [h]

theorem toyDecrypt_toyEncrypt (k m : Bytes) :
    toyDecrypt k (toyEncrypt k m) = some m := by
  show (if k.length = k.length ∧ (k ++ m).take k.length = k
      then some ((k ++ m).drop k.length) else none) = some m
  rw [if_pos ⟨rfl, List.take_left k m⟩, List.drop_left]

/-- The concrete `CryptoModel` instance used for closed evaluations. -/
def toyCrypto : CryptoModel where
  genKey := fun s => [s]
  encrypt := toyEncrypt
  decrypt := toyDecrypt
  dumps := toyDumps
  loads := toyLoads
  decrypt_encrypt := toyDecrypt_toyEncrypt
  loads_dumps := toyLoads_toyDumps

theorem lookupBytes_filter_ne (l : List (String × Bytes)) (p q : String)
    (h : q ≠ p) :
    lookupBytes (l.filter (fun e => !(e.1 == p))) q = lookupBytes l q := by
  induction l with
  | nil => rfl
  | cons e rest ih =>
    obtain ⟨k, b⟩ := e
    have hpq : ¬ (p = q) := fun e1 => h e1.symm
    by_cases hk : k = p
    · have hkq : ¬ (k = q) := fun hq => h (hq ▸ hk)
      simp [lookupBytes, hk, hkq, hpq, ih]
    · by_cases hq : k = q
      · simp [lookupBytes, hk, hq, h]
      · simp [lookupBytes, hk, hq, ih]

theorem lookupBytes_filter_self (l : List (String × Bytes)) (p : String) :
    lookupBytes (l.filter (fun e => !(e.1 == p))) p = none := by
  induction l with
  | nil => rfl
  | cons e rest ih =>
    obtain ⟨k, b⟩ := e
    by_cases hk : k = p
    · subst hk
      simp [lookupBytes, ih]
    · simp [lookupBytes, hk, ih]

theorem setFile_lookup_self (fs : FS) (p : String) (b : Bytes) :
    (fs.setFile p b).lookupFile p = some b := by
  simp [FS.setFile, FS.lookupFile, lookupBytes]

theorem setFile_lookup_ne (fs : FS) (p q : String) (b : Bytes) (h : q ≠ p) :
    (fs.setFile p b).lookupFile q = fs.lookupFile q := by
  have hpq : ¬ (p = q) := fun hq => h hq.symm
  simp [FS.setFile, FS.lookupFile, lookupBytes, hpq, lookupBytes_filter_ne _ _ _ h]

theorem removeFile_lookup_self (fs : FS) (p : String) :
    (fs.removeFile p).lookupFile p = none := by
  simp [FS.removeFile, FS.lookupFile, lookupBytes_filter_self]

theorem removeFile_lookup_ne (fs : FS) (p q : String) (h : q ≠ p) :
    (fs.removeFile p).lookupFile q = fs.lookupFile q := by
  simp [FS.removeFile, FS.lookupFile, lookupBytes_filter_ne _ _ _ h]

theorem writeFile_ok (fs : FS) (p : String) (b : Bytes) (h : p ∉ fs.denyWrite) :
    fs.writeFile p b = .ok (fs.setFile p b) := by
  simp [FS.writeFile, h]

theorem writeFile_denied (fs : FS) (p : String) (b : Bytes)
    (h : p ∈ fs.denyWrite) :
    fs.writeFile p b = .error .ioError := by
  simp [FS.writeFile, h]

theorem readFile_ok (fs : FS) (p : String) (b : Bytes) (hr : p ∉ fs.denyRead)
    (hb : fs.lookupFile p = some b) :
    fs.readFile p = .ok b := by
  simp [FS.readFile, hr, hb]

theorem readFile_denied (fs : FS) (p : String) (h : p ∈ fs.denyRead) :
    fs.readFile p = .error .ioError := by
  simp [FS.readFile, h]

theorem pathExists_setFile_self (fs : FS) (p : String) (b : Bytes) :
    (fs.setFile p b).pathExists p = true := by
  simp [FS.pathExists, setFile_lookup_self]

theorem pathExists_setFile_ne (fs : FS) (p q : String) (b : Bytes) (h : q ≠ p) :
    (fs.setFile p b).pathExists q = fs.pathExists q := by
  simp [FS.pathExists, setFile_lookup_ne _ _ _ _ h]

theorem get_cipher_cached (C : CryptoModel) (m : Manager) (fs : FS) (seed : Nat)
    (k : Bytes) (h : m.cipher = some k) :
    get_cipher C m fs seed = (.ok k, m, fs) := by
  simp [get_cipher, h]

theorem get_cipher_read (C : CryptoModel) (m : Manager) (fs : FS) (seed : Nat)
    (k : Bytes) (hc : m.cipher = none)
    (hk : fs.lookupFile m.master_key_file = some k)
    (hr : m.master_key_file ∉ fs.denyRead) :
    get_cipher C m fs seed = (.ok k, { m with cipher := some k }, fs) := by
  simp [get_cipher, hc, get_or_create_master_key, FS.pathExists, hk,
    readFile_ok _ _ _ hr hk]

theorem get_cipher_create (C : CryptoModel) (m : Manager) (fs : FS) (seed : Nat)
    (hc : m.cipher = none) (hk : fs.lookupFile m.master_key_file = none)
    (hw : m.master_key_file ∉ fs.denyWrite) :
    get_cipher C m fs seed =
      (.ok (C.genKey seed), { m with cipher := some (C.genKey seed) },
        fs.setFile m.master_key_file (C.genKey seed)) := by
  simp [get_cipher, hc, get_or_create_master_key, FS.pathExists, hk,
    writeFile_ok _ _ _ hw]

theorem save_config_of_cipher (C : CryptoModel) (m : Manager) (fs : FS)
    (seed : Nat) (cfg : Config) (k : Bytes) (m1 : Manager) (fs1 : FS)
    (hgc : get_cipher C m fs seed = (.ok k, m1, fs1))
    (hw : m1.config_file ∉ fs1.denyWrite) :
    save_config C m fs seed cfg =
      (.ok (), m1, fs1.setFile m1.config_file (C.encrypt k (C.dumps cfg))) := by
  simp [save_config, hgc, writeFile_ok _ _ _ hw]

theorem load_config_of_cipher (C : CryptoModel) (m : Manager) (fs : FS)
    (seed : Nat) (k : Bytes) (m1 : Manager) (blob : Bytes)
    (hconf : is_configured m fs = true)
    (hgc : get_cipher C m fs seed = (.ok k, m1, fs))
    (hr : m1.config_file ∉ fs.denyRead)
    (hb : fs.lookupFile m1.config_file = some blob) :
    load_config C m fs seed =
      (match Option.bind (C.decrypt k blob) C.loads with
       | some cfg => (.ok (some cfg), m1, fs)
       | none => (.error .corrupted, m1, fs)) := by
  rw [load_config]
  rw [hconf]
  simp only [Bool.true_eq_false, if_false, hgc, readFile_ok _ _ _ hr hb]
  cases hdec : C.decrypt k blob with
  | none => simp [Option.bind]
  | some plain =>
    cases hload : C.loads plain with
    | none => simp [Option.bind, hload]
    | some cfg => simp [Option.bind, hload]

theorem removeFile_lookup_none (fs : FS) (p q : String)
    (h : fs.lookupFile q = none) : (fs.removeFile p).lookupFile q = none := by
  by_cases hq : q = p
  · rw [hq, removeFile_lookup_self]
  · rw [removeFile_lookup_ne _ _ _ hq, h]

theorem pathExists_false_lookup (fs : FS) (p : String)
    (h : fs.pathExists p = false) : fs.lookupFile p = none := by
  unfold FS.pathExists at h
  cases hl : fs.lookupFile p with
  | none => rfl
  | some b => rw [hl] at h; simp at h

theorem unlink_if_lookup_self (fs : FS) (p : String) :
    (if fs.pathExists p then fs.removeFile p else fs).lookupFile p = none := by
  by_cases h : fs.pathExists p = true
  · rw [if_pos h]
    exact removeFile_lookup_self _ _
  · rw [if_neg h]
    cases hx : fs.pathExists p with
    | false => exact pathExists_false_lookup _ _ hx
    | true => exact absurd hx h

theorem unlink_if_lookup_none (fs : FS) (p q : String)
    (h : fs.lookupFile q = none) :
    (if fs.pathExists p then fs.removeFile p else fs).lookupFile q = none := by
  by_cases hp : fs.pathExists p = true
  · rw [if_pos hp]
    exact removeFile_lookup_none _ _ _ h
  · rw [if_neg hp]
    exact h

theorem delete_config_lookups (m : Manager) (fs : FS) :
    (delete_config m fs).lookupFile m.config_file = none ∧
    (delete_config m fs).lookupFile m.master_key_file = none :=
  ⟨unlink_if_lookup_none _ _ _ (unlink_if_lookup_self fs m.config_file),
   unlink_if_lookup_self _ _⟩

/-- C5: the validator applies its rules in order with the first failing
rule determining the result: the empty mapping fails with the
provider-required message, a groq provider without a groq key fails with
the Groq-required message, a groq setup whose OpenAI key is malformed
fails with the OpenAI format warning (the format rule fires before the
groq format rule even though the groq key is well formed), and a
well-formed OpenAI setup validates with no message. -/
theorem validate_setup_data_scenarios :
    validate_setup_data [] = (false, some "LLM provider is required") ∧
    validate_setup_data [("llm_provider", Val.str "groq")] =
      (false, some "Groq API key is required when using Groq") ∧
    validate_setup_data [("llm_provider", Val.str "groq"),
        ("groq_api_key", Val.str "gsk_abc"),
        ("openai_api_key", Val.str "bad")] =
      (false,
        some "OpenAI API key format appears invalid (should start with \x27sk-\x27)") ∧
    validate_setup_data [("llm_provider", Val.str "openai"),
        ("openai_api_key", Val.str "sk-valid123")] = (true, none) := by
  refine ⟨?_, ?_, ?_, ?_⟩ <;> decide

/-- C6: the validator is a pure function of the mapping it receives: the
embedding types it with no access to the filesystem or manager state, and
any two mappings that agree as dictionaries (pointwise equal lookups)
validate to identical results, so equal inputs give equal results. -/
theorem validate_setup_data_deterministic (d1 d2 : Config)
    (h : ∀ k : String, getVal d1 k = getVal d2 k) :
    validate_setup_data d1 = validate_setup_data d2 := by
  unfold validate_setup_data
  simp only [h]

theorem validate_setup_data_deterministic_witness :
    validate_setup_data
        [("llm_provider", Val.str "groq"), ("llm_provider", Val.str "openai")] =
      validate_setup_data [("llm_provider", Val.str "groq")] :=
  validate_setup_data_deterministic _ _ (fun k => by
    by_cases h : ("llm_provider" : String) = k <;> simp [getVal, h])

/-- C10: whenever the manager is not configured — including the partial
states where only one of the two files exists — load_config returns the
absent result and leaves the manager (in particular its cipher cache) and
the entire filesystem untouched: no file is created, modified or deleted
and no master key is generated. -/
theorem load_config_not_configured_frame (C : CryptoModel) (m : Manager)
    (fs : FS) (seed : Nat) (h : is_configured m fs = false) :
    load_config C m fs seed = (.ok none, m, fs) := by
  simp [load_config, h]

theorem load_config_not_configured_frame_witness :
    load_config toyCrypto ⟨"config.encrypted", ".master_key", none⟩
        ⟨[("config.encrypted", [1, 2, 3])], [], []⟩ 0 =
      (.ok none, ⟨"config.encrypted", ".master_key", none⟩,
        ⟨[("config.encrypted", [1, 2, 3])], [], []⟩) :=
  load_config_not_configured_frame toyCrypto _ _ 0 (by decide)

/-- C2: load_config returns the empty result (not an error) whenever
is_configured is false; and in the configured state it classifies
failures: whenever decrypting the stored blob and parsing the plaintext
fails, the result is the corrupted-configuration error — an error value,
a kind distinct from the absent result — and any successful load returns
exactly the decrypt-then-parse of the stored blob, never a silently
different mapping. -/
theorem load_config_error_classification (C : CryptoModel) (m : Manager)
    (fs : FS) (seed : Nat) :
    (is_configured m fs = false → load_config C m fs seed = (.ok none, m, fs)) ∧
    (is_configured m fs = true →
      ∀ (k : Bytes) (m1 : Manager),
        get_cipher C m fs seed = (.ok k, m1, fs) →
        ∀ blob, fs.lookupFile m1.config_file = some blob →
          m1.config_file ∉ fs.denyRead →
          ((Option.bind (C.decrypt k blob) C.loads = none →
            (load_config C m fs seed).1 = .error .corrupted) ∧
           (∀ c, (load_config C m fs seed).1 = .ok (some c) →
            Option.bind (C.decrypt k blob) C.loads = some c))) := by
  constructor
  · intro h
    simp [load_config, h]
  · intro hconf k m1 hgc blob hb hr
    have heval := load_config_of_cipher C m fs seed k m1 blob hconf hgc hr hb
    constructor
    · intro hnone
      rw [heval, hnone]
    · intro c hc
      rw [heval] at hc
      cases hbind : Option.bind (C.decrypt k blob) C.loads with
      | none => rw [hbind] at hc; simp at hc
      | some c2 =>
        rw [hbind] at hc
        simp at hc
        rw [hc]

theorem load_config_error_classification_witness :
    (load_config toyCrypto ⟨"config.encrypted", ".master_key", none⟩
      ⟨[("config.encrypted", [9, 9]), (".master_key", [0])], [], []⟩ 0).1 =
      .error .corrupted :=
  ((load_config_error_classification toyCrypto
      ⟨"config.encrypted", ".master_key", none⟩
      ⟨[("config.encrypted", [9, 9]), (".master_key", [0])], [], []⟩ 0).2
    (by decide) [0] ⟨"config.encrypted", ".master_key", some [0]⟩ (by decide)
    [9, 9] (by decide) (by decide)).1 (by decide)

/-- C3: delete_config removes the config file and the key file when
present and treats an absent file as a no-op rather than an error:
afterwards neither file exists, is_configured is false, and load_config
returns the absent result rather than the corrupted-configuration error;
when neither file existed the filesystem is returned unchanged. -/
theorem delete_config_resets (C : CryptoModel) (m : Manager) (fs : FS)
    (seed : Nat) :
    (delete_config m fs).pathExists m.config_file = false ∧
    (delete_config m fs).pathExists m.master_key_file = false ∧
    is_configured m (delete_config m fs) = false ∧
    load_config C m (delete_config m fs) seed =
      (.ok none, m, delete_config m fs) ∧
    (fs.pathExists m.config_file = false →
      fs.pathExists m.master_key_file = false → delete_config m fs = fs) := by
  obtain ⟨hcf, hkf⟩ := delete_config_lookups m fs
  have hecf : (delete_config m fs).pathExists m.config_file = false := by
    simp [FS.pathExists, hcf]
  have hekf : (delete_config m fs).pathExists m.master_key_file = false := by
    simp [FS.pathExists, hkf]
  have hconf : is_configured m (delete_config m fs) = false := by
    simp [is_configured, hecf, hekf]
  refine ⟨hecf, hekf, hconf, by simp [load_config, hconf], ?_⟩
  intro h1 h2
  unfold delete_config
  simp [h1, h2]

/-- C1: save-then-load round-trips on the same manager: for every crypto
and JSON model satisfying the documented round-trip laws, every manager
with a fresh cipher cache, distinct file paths and accessible files, and
every configuration mapping, save_config succeeds and the subsequent
load_config on the resulting state returns exactly the saved mapping. -/
theorem save_then_load_roundtrip (C : CryptoModel) (m : Manager) (fs : FS)
    (seed : Nat) (cfg : Config) (hcip : m.cipher = none)
    (hne : m.config_file ≠ m.master_key_file)
    (hw1 : m.master_key_file ∉ fs.denyWrite)
    (hw2 : m.config_file ∉ fs.denyWrite)
    (hr1 : m.master_key_file ∉ fs.denyRead)
    (hr2 : m.config_file ∉ fs.denyRead) :
    ∃ m1 fs1, save_config C m fs seed cfg = (.ok (), m1, fs1) ∧
      (load_config C m1 fs1 seed).1 = .ok (some cfg) := by
  have hnekf : m.master_key_file ≠ m.config_file := fun e => hne e.symm
  cases hk0 : fs.lookupFile m.master_key_file with
  | some k0 =>
    have hgc := get_cipher_read C m fs seed k0 hcip hk0 hr1
    have hsave := save_config_of_cipher C m fs seed cfg k0 _ fs hgc hw2
    refine ⟨_, _, hsave, ?_⟩
    have hlcf : (fs.setFile m.config_file
        (C.encrypt k0 (C.dumps cfg))).lookupFile m.config_file =
        some (C.encrypt k0 (C.dumps cfg)) := setFile_lookup_self _ _ _
    have hlkf : (fs.setFile m.config_file
        (C.encrypt k0 (C.dumps cfg))).lookupFile m.master_key_file =
        some k0 := by
      rw [setFile_lookup_ne _ _ _ _ hnekf, hk0]
    have hconf : is_configured { m with cipher := some k0 }
        (fs.setFile m.config_file (C.encrypt k0 (C.dumps cfg))) = true := by
      simp [is_configured, FS.pathExists, hlcf, hlkf]
    have hgc2 : get_cipher C { m with cipher := some k0 }
        (fs.setFile m.config_file (C.encrypt k0 (C.dumps cfg))) seed =
        (.ok k0, { m with cipher := some k0 },
          fs.setFile m.config_file (C.encrypt k0 (C.dumps cfg))) :=
      get_cipher_cached C _ _ seed k0 rfl
    have heval := load_config_of_cipher C { m with cipher := some k0 }
      (fs.setFile m.config_file (C.encrypt k0 (C.dumps cfg))) seed k0
      { m with cipher := some k0 } (C.encrypt k0 (C.dumps cfg)) hconf hgc2
      hr2 (setFile_lookup_self _ _ _)
    rw [heval]
    simp [C.decrypt_encrypt, C.loads_dumps]
  | none =>
    have hgc := get_cipher_create C m fs seed hcip hk0 hw1
    have hw2A : m.config_file ∉
        (fs.setFile m.master_key_file (C.genKey seed)).denyWrite := hw2
    have hsave := save_config_of_cipher C m fs seed cfg (C.genKey seed) _ _
      hgc hw2A
    refine ⟨_, _, hsave, ?_⟩
    have hkfA : ((fs.setFile m.master_key_file (C.genKey seed)).setFile
        m.config_file (C.encrypt (C.genKey seed) (C.dumps cfg))).lookupFile
        m.master_key_file = some (C.genKey seed) := by
      rw [setFile_lookup_ne _ _ _ _ hnekf, setFile_lookup_self]
    have hlcfA : ((fs.setFile m.master_key_file (C.genKey seed)).setFile
        m.config_file (C.encrypt (C.genKey seed) (C.dumps cfg))).lookupFile
        m.config_file = some (C.encrypt (C.genKey seed) (C.dumps cfg)) :=
      setFile_lookup_self _ _ _
    have hconf : is_configured { m with cipher := some (C.genKey seed) }
        ((fs.setFile m.master_key_file (C.genKey seed)).setFile
          m.config_file (C.encrypt (C.genKey seed) (C.dumps cfg))) = true := by
      simp [is_configured, FS.pathExists, hlcfA, hkfA]
    have hgc2 := get_cipher_cached C { m with cipher := some (C.genKey seed) }
      ((fs.setFile m.master_key_file (C.genKey seed)).setFile
        m.config_file (C.encrypt (C.genKey seed) (C.dumps cfg))) seed
      (C.genKey seed) rfl
    have heval := load_config_of_cipher C
      { m with cipher := some (C.genKey seed) }
      ((fs.setFile m.master_key_file (C.genKey seed)).setFile
        m.config_file (C.encrypt (C.genKey seed) (C.dumps cfg))) seed
      (C.genKey seed) { m with cipher := some (C.genKey seed) }
      (C.encrypt (C.genKey seed) (C.dumps cfg)) hconf hgc2 hr2
      (setFile_lookup_self _ _ _)
    rw [heval]
    simp [C.decrypt_encrypt, C.loads_dumps]

theorem save_then_load_roundtrip_witness :
    ∃ m1 fs1,
      save_config toyCrypto ⟨"config.encrypted", ".master_key", none⟩
        ⟨[], [], []⟩ 7 [("llm_provider", Val.str "groq")] =
        (.ok (), m1, fs1) ∧
      (load_config toyCrypto m1 fs1 7).1 =
        .ok (some [("llm_provider", Val.str "groq")]) :=
  save_then_load_roundtrip toyCrypto ⟨"config.encrypted", ".master_key", none⟩
    ⟨[], [], []⟩ 7 [("llm_provider", Val.str "groq")] rfl (by decide)
    (by decide) (by decide) (by decide) (by decide)

/-- C8: after one manager instance saves a mapping, a freshly constructed
second instance pointed at the same file paths — with an empty cipher
cache, so the master key is re-read from disk — loads successfully and
obtains exactly the saved mapping. -/
theorem fresh_instance_roundtrip (C : CryptoModel) (cf kf : String) (fs : FS)
    (seed : Nat) (cfg : Config) (hne : cf ≠ kf)
    (hw1 : kf ∉ fs.denyWrite) (hw2 : cf ∉ fs.denyWrite)
    (hr1 : kf ∉ fs.denyRead) (hr2 : cf ∉ fs.denyRead) :
    ∃ m1 fs1, save_config C ⟨cf, kf, none⟩ fs seed cfg = (.ok (), m1, fs1) ∧
      (load_config C ⟨cf, kf, none⟩ fs1 seed).1 = .ok (some cfg) := by
  have hnekf : kf ≠ cf := fun e => hne e.symm
  cases hk0 : fs.lookupFile kf with
  | some k0 =>
    have hgc := get_cipher_read C ⟨cf, kf, none⟩ fs seed k0 rfl hk0 hr1
    have hsave := save_config_of_cipher C ⟨cf, kf, none⟩ fs seed cfg k0 _ fs
      hgc hw2
    refine ⟨_, _, hsave, ?_⟩
    have hlcf : (fs.setFile cf (C.encrypt k0 (C.dumps cfg))).lookupFile cf =
        some (C.encrypt k0 (C.dumps cfg)) := setFile_lookup_self _ _ _
    have hlkf : (fs.setFile cf (C.encrypt k0 (C.dumps cfg))).lookupFile kf =
        some k0 := by
      rw [setFile_lookup_ne _ _ _ _ hnekf, hk0]
    have hconf : is_configured ⟨cf, kf, none⟩
        (fs.setFile cf (C.encrypt k0 (C.dumps cfg))) = true := by
      simp [is_configured, FS.pathExists, hlcf, hlkf]
    have hgc2 := get_cipher_read C ⟨cf, kf, none⟩
      (fs.setFile cf (C.encrypt k0 (C.dumps cfg))) seed k0 rfl hlkf hr1
    have heval := load_config_of_cipher C ⟨cf, kf, none⟩
      (fs.setFile cf (C.encrypt k0 (C.dumps cfg))) seed k0
      ⟨cf, kf, some k0⟩ (C.encrypt k0 (C.dumps cfg)) hconf hgc2 hr2 hlcf
    rw [heval]
    simp [C.decrypt_encrypt, C.loads_dumps]
  | none =>
    have hgc := get_cipher_create C ⟨cf, kf, none⟩ fs seed rfl hk0 hw1
    have hw2A : cf ∉ (fs.setFile kf (C.genKey seed)).denyWrite := hw2
    have hsave := save_config_of_cipher C ⟨cf, kf, none⟩ fs seed cfg
      (C.genKey seed) _ _ hgc hw2A
    refine ⟨_, _, hsave, ?_⟩
    have hlcf : ((fs.setFile kf (C.genKey seed)).setFile cf
        (C.encrypt (C.genKey seed) (C.dumps cfg))).lookupFile cf =
        some (C.encrypt (C.genKey seed) (C.dumps cfg)) :=
      setFile_lookup_self _ _ _
    have hlkf : ((fs.setFile kf (C.genKey seed)).setFile cf
        (C.encrypt (C.genKey seed) (C.dumps cfg))).lookupFile kf =
        some (C.genKey seed) := by
      rw [setFile_lookup_ne _ _ _ _ hnekf, setFile_lookup_self]
    have hconf : is_configured ⟨cf, kf, none⟩
        ((fs.setFile kf (C.genKey seed)).setFile cf
          (C.encrypt (C.genKey seed) (C.dumps cfg))) = true := by
      simp [is_configured, FS.pathExists, hlcf, hlkf]
    have hgc2 := get_cipher_read C ⟨cf, kf, none⟩
      ((fs.setFile kf (C.genKey seed)).setFile cf
        (C.encrypt (C.genKey seed) (C.dumps cfg))) seed (C.genKey seed)
      rfl hlkf hr1
    have heval := load_config_of_cipher C ⟨cf, kf, none⟩
      ((fs.setFile kf (C.genKey seed)).setFile cf
        (C.encrypt (C.genKey seed) (C.dumps cfg))) seed (C.genKey seed)
      ⟨cf, kf, some (C.genKey seed)⟩
      (C.encrypt (C.genKey seed) (C.dumps cfg)) hconf hgc2 hr2 hlcf
    rw [heval]
    simp [C.decrypt_encrypt, C.loads_dumps]

theorem fresh_instance_roundtrip_witness :
    ∃ m1 fs1,
      save_config toyCrypto ⟨"config.encrypted", ".master_key", none⟩
        ⟨[], [], []⟩ 3 [("enable_vision", Val.bool true)] =
        (.ok (), m1, fs1) ∧
      (load_config toyCrypto ⟨"config.encrypted", ".master_key", none⟩ fs1 3).1 =
        .ok (some [("enable_vision", Val.bool true)]) :=
  fresh_instance_roundtrip toyCrypto "config.encrypted" ".master_key"
    ⟨[], [], []⟩ 3 [("enable_vision", Val.bool true)] (by decide) (by decide)
    (by decide) (by decide) (by decide)

theorem pathExists_true_lookup (fs : FS) (p : String)
    (h : fs.pathExists p = true) : ∃ b, fs.lookupFile p = some b := by
  cases hl : fs.lookupFile p with
  | none => rw [FS.pathExists, hl] at h; simp at h
  | some b => exact ⟨b, rfl⟩

theorem is_configured_of_lookups (m : Manager) (fs : FS) (b1 b2 : Bytes)
    (h1 : fs.lookupFile m.config_file = some b1)
    (h2 : fs.lookupFile m.master_key_file = some b2) :
    is_configured m fs = true := by
  simp [is_configured, FS.pathExists, h1, h2]

/-- C7 counterexample: with both files present but the config file
unreadable, the filesystem error inside load_config surfaces as the
corrupted-configuration kind, not as the distinct I/O kind, refuting the
claim that every operation propagates filesystem errors as the I/O
kind. -/
theorem load_config_io_error_miskinded :
    (load_config toyCrypto ⟨"config.encrypted", ".master_key", none⟩
        ⟨[("config.encrypted", [9]), (".master_key", [0])],
          ["config.encrypted"], []⟩ 0).1 = .error .corrupted ∧
      Err.corrupted ≠ Err.ioError := by
  refine ⟨?_, ?_⟩ <;> decide

/-- C7 (amended): filesystem errors propagate as the distinct I/O error
kind from save_config (shown both for a denied config-file write and for
a denied master-key read), but inside load_config a filesystem error
while reading the config file is converted into the
corrupted-configuration kind rather than the I/O kind. -/
theorem error_kind_propagation (C : CryptoModel) (m : Manager) (fs : FS)
    (seed : Nat) (cfg : Config) :
    (∀ k, m.cipher = some k → m.config_file ∈ fs.denyWrite →
      (save_config C m fs seed cfg).1 = .error .ioError) ∧
    (m.cipher = none → fs.pathExists m.master_key_file = true →
      m.master_key_file ∈ fs.denyRead →
      (save_config C m fs seed cfg).1 = .error .ioError) ∧
    (is_configured m fs = true → m.config_file ∈ fs.denyRead →
      (load_config C m fs seed).1 = .error .corrupted) := by
  refine ⟨?_, ?_, ?_⟩
  · intro k hk hw
    have hgc := get_cipher_cached C m fs seed k hk
    simp [save_config, hgc, writeFile_denied _ _ _ hw]
  · intro hc hp hr
    simp [save_config, get_cipher, hc, get_or_create_master_key, hp,
      readFile_denied _ _ hr]
  · intro hconf hr
    have hkfp : fs.pathExists m.master_key_file = true := by
      rw [is_configured, Bool.and_eq_true] at hconf
      exact hconf.2
    cases hcip : m.cipher with
    | some k =>
      have hgc := get_cipher_cached C m fs seed k hcip
      simp [load_config, hconf, hgc, readFile_denied _ _ hr]
    | none =>
      by_cases hkr : m.master_key_file ∈ fs.denyRead
      · simp [load_config, hconf, get_cipher, hcip, get_or_create_master_key,
          hkfp, readFile_denied _ _ hkr]
      · obtain ⟨k0, hk0⟩ := pathExists_true_lookup fs m.master_key_file hkfp
        have hgc := get_cipher_read C m fs seed k0 hcip hk0 hkr
        simp [load_config, hconf, hgc, readFile_denied _ _ hr]

theorem error_kind_propagation_witness :
    (save_config toyCrypto ⟨"config.encrypted", ".master_key", some [5]⟩
        ⟨[(".master_key", [5])], [], ["config.encrypted"]⟩ 0
        [("a", Val.nat 1)]).1 = .error .ioError :=
  (error_kind_propagation toyCrypto
      ⟨"config.encrypted", ".master_key", some [5]⟩
      ⟨[(".master_key", [5])], [], ["config.encrypted"]⟩ 0
      [("a", Val.nat 1)]).1 [5] rfl (by decide)

/-- C9 counterexample: a manager holding a cached cipher while the
master-key file is absent saves successfully without recreating the key
file, leaving the partial state with only the config file present, so
is_configured is false after a successful save. -/
theorem save_config_partial_state :
    (save_config toyCrypto ⟨"config.encrypted", ".master_key", some [5]⟩
        ⟨[], [], []⟩ 0 [("a", Val.nat 1)]).1 = .ok () ∧
      is_configured ⟨"config.encrypted", ".master_key", some [5]⟩
        (save_config toyCrypto ⟨"config.encrypted", ".master_key", some [5]⟩
          ⟨[], [], []⟩ 0 [("a", Val.nat 1)]).2.2 = false := by
  refine ⟨?_, ?_⟩ <;> decide

/-- C9 (amended): for a manager that has not yet cached a cipher, or
whose master-key file exists, a successful save_config leaves both the
key file and the freshly written config file present, so is_configured
returns true on the resulting state; the exclusion of a cached cipher
with an absent key file is forced by the counterexample. -/
theorem save_config_establishes_configured (C : CryptoModel) (m : Manager)
    (fs : FS) (seed : Nat) (cfg : Config) (m1 : Manager) (fs1 : FS)
    (hpre : m.cipher = none ∨ fs.pathExists m.master_key_file = true)
    (hok : save_config C m fs seed cfg = (.ok (), m1, fs1)) :
    is_configured m1 fs1 = true := by
  cases hcip : m.cipher with
  | some k =>
    have hkfp : fs.pathExists m.master_key_file = true := by
      cases hpre with
      | inl h => rw [hcip] at h; exact absurd h (by simp)
      | inr h => exact h
    have hgc := get_cipher_cached C m fs seed k hcip
    by_cases hw : m.config_file ∈ fs.denyWrite
    · have hbad : save_config C m fs seed cfg = (.error .ioError, m, fs) := by
        simp [save_config, hgc, writeFile_denied _ _ _ hw]
      rw [hbad] at hok
      simp at hok
    · have heval := save_config_of_cipher C m fs seed cfg k m fs hgc hw
      rw [heval] at hok
      simp only [Prod.mk.injEq] at hok
      obtain ⟨-, hm, hf⟩ := hok
      subst hm
      subst hf
      obtain ⟨b2, hb2⟩ : ∃ b2,
          (fs.setFile m.config_file (C.encrypt k (C.dumps cfg))).lookupFile
            m.master_key_file = some b2 := by
        by_cases he : m.master_key_file = m.config_file
        · rw [he, setFile_lookup_self]
          exact ⟨_, rfl⟩
        · rw [setFile_lookup_ne _ _ _ _ he]
          exact pathExists_true_lookup fs m.master_key_file hkfp
      exact is_configured_of_lookups _ _ _ _ (setFile_lookup_self _ _ _) hb2
  | none =>
    cases hk0 : fs.lookupFile m.master_key_file with
    | some k0 =>
      have hkfp : fs.pathExists m.master_key_file = true := by
        simp [FS.pathExists, hk0]
      by_cases hkr : m.master_key_file ∈ fs.denyRead
      · have hbad : (save_config C m fs seed cfg).1 = .error .ioError := by
          simp [save_config, get_cipher, hcip, get_or_create_master_key, hkfp,
            readFile_denied _ _ hkr]
        rw [hok] at hbad
        simp at hbad
      · have hgc := get_cipher_read C m fs seed k0 hcip hk0 hkr
        by_cases hw : m.config_file ∈ fs.denyWrite
        · have hbad : (save_config C m fs seed cfg).1 = .error .ioError := by
            simp [save_config, hgc, writeFile_denied _ _ _ hw]
          rw [hok] at hbad
          simp at hbad
        · have heval := save_config_of_cipher C m fs seed cfg k0 _ fs hgc hw
          rw [heval] at hok
          simp only [Prod.mk.injEq] at hok
          obtain ⟨-, hm, hf⟩ := hok
          subst hm
          subst hf
          obtain ⟨b2, hb2⟩ : ∃ b2,
              (fs.setFile m.config_file (C.encrypt k0 (C.dumps cfg))).lookupFile
                m.master_key_file = some b2 := by
            by_cases he : m.master_key_file = m.config_file
            · rw [he, setFile_lookup_self]
              exact ⟨_, rfl⟩
            · rw [setFile_lookup_ne _ _ _ _ he, hk0]
              exact ⟨k0, rfl⟩
          exact is_configured_of_lookups _ _ _ _ (setFile_lookup_self _ _ _) hb2
    | none =>
      have hkfp : fs.pathExists m.master_key_file = false := by
        simp [FS.pathExists, hk0]
      by_cases hwk : m.master_key_file ∈ fs.denyWrite
      · have hbad : (save_config C m fs seed cfg).1 = .error .ioError := by
          simp [save_config, get_cipher, hcip, get_or_create_master_key, hkfp,
            writeFile_denied _ _ _ hwk]
        rw [hok] at hbad
        simp at hbad
      · have hgc := get_cipher_create C m fs seed hcip hk0 hwk
        by_cases hw : m.config_file ∈
            (fs.setFile m.master_key_file (C.genKey seed)).denyWrite
        · have hbad : (save_config C m fs seed cfg).1 = .error .ioError := by
            simp [save_config, hgc, writeFile_denied _ _ _ hw]
          rw [hok] at hbad
          simp at hbad
        · have heval := save_config_of_cipher C m fs seed cfg (C.genKey seed)
            _ _ hgc hw
          rw [heval] at hok
          simp only [Prod.mk.injEq] at hok
          obtain ⟨-, hm, hf⟩ := hok
          subst hm
          subst hf
          obtain ⟨b2, hb2⟩ : ∃ b2,
              ((fs.setFile m.master_key_file (C.genKey seed)).setFile
                m.config_file
                (C.encrypt (C.genKey seed) (C.dumps cfg))).lookupFile
                m.master_key_file = some b2 := by
            by_cases he : m.master_key_file = m.config_file
            · rw [he, setFile_lookup_self]
              exact ⟨_, rfl⟩
            · rw [setFile_lookup_ne _ _ _ _ he, setFile_lookup_self]
              exact ⟨_, rfl⟩
          exact is_configured_of_lookups _ _ _ _ (setFile_lookup_self _ _ _) hb2

theorem save_config_establishes_configured_witness :
    is_configured
      (save_config toyCrypto ⟨"config.encrypted", ".master_key", none⟩
        ⟨[], [], []⟩ 4 [("b", Val.nat 2)]).2.1
      (save_config toyCrypto ⟨"config.encrypted", ".master_key", none⟩
        ⟨[], [], []⟩ 4 [("b", Val.nat 2)]).2.2 = true :=
  save_config_establishes_configured toyCrypto
    ⟨"config.encrypted", ".master_key", none⟩ ⟨[], [], []⟩ 4
    [("b", Val.nat 2)] _ _ (Or.inl rfl) (by decide)

theorem update_twice_from_scratch (C : CryptoModel) (cf kf : String)
    (seed : Nat) (u1 u2 : Config) (hne : cf ≠ kf) :
    ∃ m1 fs1 m2 fs2,
      update_config C ⟨cf, kf, none⟩ ⟨[], [], []⟩ seed u1 = (.ok (), m1, fs1) ∧
      update_config C m1 fs1 seed u2 = (.ok (), m2, fs2) ∧
      (load_config C m2 fs2 seed).1 =
        .ok (some (dictUpdate (dictUpdate [] u1) u2)) := by
  have hnekf : kf ≠ cf := fun e => hne e.symm
  have hnc : is_configured ⟨cf, kf, none⟩ ⟨[], [], []⟩ = false := rfl
  have hload0 : load_config C ⟨cf, kf, none⟩ ⟨[], [], []⟩ seed =
      (.ok none, ⟨cf, kf, none⟩, ⟨[], [], []⟩) := by
    simp [load_config, hnc]
  have hgc := get_cipher_create C ⟨cf, kf, none⟩ ⟨[], [], []⟩ seed rfl rfl
    (List.not_mem_nil kf)
  have hsave1 := save_config_of_cipher C ⟨cf, kf, none⟩ ⟨[], [], []⟩ seed
    (dictUpdate [] u1) (C.genKey seed) _ _ hgc (List.not_mem_nil cf)
  have hupdate1 : update_config C ⟨cf, kf, none⟩ ⟨[], [], []⟩ seed u1 =
      (.ok (), ⟨cf, kf, some (C.genKey seed)⟩,
        ((FS.mk [] [] []).setFile kf (C.genKey seed)).setFile cf
          (C.encrypt (C.genKey seed) (C.dumps (dictUpdate [] u1)))) := by
    simp only [update_config, hload0, Option.getD]
    exact hsave1
  have hlcf1 : (((FS.mk [] [] []).setFile kf (C.genKey seed)).setFile cf
      (C.encrypt (C.genKey seed) (C.dumps (dictUpdate [] u1)))).lookupFile cf =
      some (C.encrypt (C.genKey seed) (C.dumps (dictUpdate [] u1))) :=
    setFile_lookup_self _ _ _
  have hlkf1 : (((FS.mk [] [] []).setFile kf (C.genKey seed)).setFile cf
      (C.encrypt (C.genKey seed) (C.dumps (dictUpdate [] u1)))).lookupFile kf =
      some (C.genKey seed) := by
    rw [setFile_lookup_ne _ _ _ _ hnekf, setFile_lookup_self]
  have hconf1 := is_configured_of_lookups ⟨cf, kf, some (C.genKey seed)⟩ _ _ _
    hlcf1 hlkf1
  have hgc1 := get_cipher_cached C ⟨cf, kf, some (C.genKey seed)⟩
    (((FS.mk [] [] []).setFile kf (C.genKey seed)).setFile cf
      (C.encrypt (C.genKey seed) (C.dumps (dictUpdate [] u1)))) seed
    (C.genKey seed) rfl
  have heval1 := load_config_of_cipher C ⟨cf, kf, some (C.genKey seed)⟩
    (((FS.mk [] [] []).setFile kf (C.genKey seed)).setFile cf
      (C.encrypt (C.genKey seed) (C.dumps (dictUpdate [] u1)))) seed
    (C.genKey seed) ⟨cf, kf, some (C.genKey seed)⟩
    (C.encrypt (C.genKey seed) (C.dumps (dictUpdate [] u1))) hconf1 hgc1
    (List.not_mem_nil cf) hlcf1
  have hload1 : load_config C ⟨cf, kf, some (C.genKey seed)⟩
      (((FS.mk [] [] []).setFile kf (C.genKey seed)).setFile cf
        (C.encrypt (C.genKey seed) (C.dumps (dictUpdate [] u1)))) seed =
      (.ok (some (dictUpdate [] u1)), ⟨cf, kf, some (C.genKey seed)⟩,
        ((FS.mk [] [] []).setFile kf (C.genKey seed)).setFile cf
          (C.encrypt (C.genKey seed) (C.dumps (dictUpdate [] u1)))) := by
    rw [heval1]
    simp [C.decrypt_encrypt, C.loads_dumps]
  have hsave2 := save_config_of_cipher C ⟨cf, kf, some (C.genKey seed)⟩
    (((FS.mk [] [] []).setFile kf (C.genKey seed)).setFile cf
      (C.encrypt (C.genKey seed) (C.dumps (dictUpdate [] u1)))) seed
    (dictUpdate (dictUpdate [] u1) u2) (C.genKey seed) _ _ hgc1
    (List.not_mem_nil cf)
  have hupdate2 : update_config C ⟨cf, kf, some (C.genKey seed)⟩
      (((FS.mk [] [] []).setFile kf (C.genKey seed)).setFile cf
        (C.encrypt (C.genKey seed) (C.dumps (dictUpdate [] u1)))) seed u2 =
      (.ok (), ⟨cf, kf, some (C.genKey seed)⟩,
        ((((FS.mk [] [] []).setFile kf (C.genKey seed)).setFile cf
          (C.encrypt (C.genKey seed) (C.dumps (dictUpdate [] u1)))).setFile cf
          (C.encrypt (C.genKey seed)
            (C.dumps (dictUpdate (dictUpdate [] u1) u2))))) := by
    simp only [update_config, hload1, Option.getD]
    exact hsave2
  refine ⟨_, _, _, _, hupdate1, hupdate2, ?_⟩
  have hlcf2 := setFile_lookup_self
    ((((FS.mk [] [] []).setFile kf (C.genKey seed)).setFile cf
      (C.encrypt (C.genKey seed) (C.dumps (dictUpdate [] u1))))) cf
    (C.encrypt (C.genKey seed) (C.dumps (dictUpdate (dictUpdate [] u1) u2)))
  have hlkf2 : ((((FS.mk [] [] []).setFile kf (C.genKey seed)).setFile cf
      (C.encrypt (C.genKey seed) (C.dumps (dictUpdate [] u1)))).setFile cf
      (C.encrypt (C.genKey seed)
        (C.dumps (dictUpdate (dictUpdate [] u1) u2)))).lookupFile kf =
      some (C.genKey seed) := by
    rw [setFile_lookup_ne _ _ _ _ hnekf]
    exact hlkf1
  have hconf2 := is_configured_of_lookups ⟨cf, kf, some (C.genKey seed)⟩ _ _ _
    hlcf2 hlkf2
  have hgc2 := get_cipher_cached C ⟨cf, kf, some (C.genKey seed)⟩
    ((((FS.mk [] [] []).setFile kf (C.genKey seed)).setFile cf
      (C.encrypt (C.genKey seed) (C.dumps (dictUpdate [] u1)))).setFile cf
      (C.encrypt (C.genKey seed)
        (C.dumps (dictUpdate (dictUpdate [] u1) u2)))) seed (C.genKey seed) rfl
  have heval2 := load_config_of_cipher C ⟨cf, kf, some (C.genKey seed)⟩
    ((((FS.mk [] [] []).setFile kf (C.genKey seed)).setFile cf
      (C.encrypt (C.genKey seed) (C.dumps (dictUpdate [] u1)))).setFile cf
      (C.encrypt (C.genKey seed)
        (C.dumps (dictUpdate (dictUpdate [] u1) u2)))) seed (C.genKey seed)
    ⟨cf, kf, some (C.genKey seed)⟩
    (C.encrypt (C.genKey seed) (C.dumps (dictUpdate (dictUpdate [] u1) u2)))
    hconf2 hgc2 (List.not_mem_nil cf) hlcf2
  rw [heval2]
  simp [C.decrypt_encrypt, C.loads_dumps]

/-- C4: update_config loads the current configuration treating "not
configured" as the empty base, shallow-merges the updates with updates
winning key-by-key, and persists the result: starting unconfigured,
updating with one binding and then another yields a stored mapping
containing both, and when the second update repeats a key its value
overwrites the first. -/
theorem update_config_merges (C : CryptoModel) (cf kf : String) (seed : Nat)
    (a b : String) (v1 v2 v3 : Val) (hne : cf ≠ kf) (hab : a ≠ b) :
    (∃ m1 fs1 m2 fs2,
      update_config C ⟨cf, kf, none⟩ ⟨[], [], []⟩ seed [(a, v1)] =
        (.ok (), m1, fs1) ∧
      update_config C m1 fs1 seed [(b, v2)] = (.ok (), m2, fs2) ∧
      ∃ stored, (load_config C m2 fs2 seed).1 = .ok (some stored) ∧
        getVal stored a = some v1 ∧ getVal stored b = some v2) ∧
    (∃ m1 fs1 m2 fs2,
      update_config C ⟨cf, kf, none⟩ ⟨[], [], []⟩ seed [(a, v1)] =
        (.ok (), m1, fs1) ∧
      update_config C m1 fs1 seed [(a, v3), (b, v2)] = (.ok (), m2, fs2) ∧
      ∃ stored, (load_config C m2 fs2 seed).1 = .ok (some stored) ∧
        getVal stored a = some v3 ∧ getVal stored b = some v2) := by
  constructor
  · obtain ⟨m1, fs1, m2, fs2, h1, h2, h3⟩ :=
      update_twice_from_scratch C cf kf seed [(a, v1)] [(b, v2)] hne
    refine ⟨m1, fs1, m2, fs2, h1, h2,
      dictUpdate (dictUpdate [] [(a, v1)]) [(b, v2)], h3, ?_, ?_⟩
    · simp [dictUpdate, setKey, getVal, hab]
    · simp [dictUpdate, setKey, getVal, hab]
  · obtain ⟨m1, fs1, m2, fs2, h1, h2, h3⟩ :=
      update_twice_from_scratch C cf kf seed [(a, v1)] [(a, v3), (b, v2)] hne
    refine ⟨m1, fs1, m2, fs2, h1, h2,
      dictUpdate (dictUpdate [] [(a, v1)]) [(a, v3), (b, v2)], h3, ?_, ?_⟩
    · simp [dictUpdate, setKey, getVal, hab]
    · simp [dictUpdate, setKey, getVal, hab]

theorem update_config_merges_witness :
    ∃ m1 fs1 m2 fs2,
      update_config toyCrypto ⟨"config.encrypted", ".master_key", none⟩
        ⟨[], [], []⟩ 2 [("a", Val.nat 1)] = (.ok (), m1, fs1) ∧
      update_config toyCrypto m1 fs1 2 [("b", Val.nat 2)] =
        (.ok (), m2, fs2) ∧
      ∃ stored, (load_config toyCrypto m2 fs2 2).1 = .ok (some stored) ∧
        getVal stored "a" = some (Val.nat 1) ∧
        getVal stored "b" = some (Val.nat 2) :=
  (update_config_merges toyCrypto "config.encrypted" ".master_key" 2
    "a" "b" (Val.nat 1) (Val.nat 2) (Val.nat 3) (by decide) (by decide)).1

theorem delete_config_resets_witness :
    is_configured ⟨"config.encrypted", ".master_key", none⟩
      (delete_config ⟨"config.encrypted", ".master_key", none⟩
        ⟨[("config.encrypted", [1]), (".master_key", [0])], [], []⟩) = false ∧
    delete_config ⟨"config.encrypted", ".master_key", none⟩ ⟨[], [], []⟩ =
      ⟨[], [], []⟩ :=
  ⟨(delete_config_resets toyCrypto ⟨"config.encrypted", ".master_key", none⟩
      ⟨[("config.encrypted", [1]), (".master_key", [0])], [], []⟩ 0).2.2.1,
   (delete_config_resets toyCrypto ⟨"config.encrypted", ".master_key", none⟩
      ⟨[], [], []⟩ 0).2.2.2.2 (by decide) (by decide)⟩
